import Mathlib

/-!
Shallow embedding of the view-normalization and montage-compositing
subsystem of `src/surfer/viz.py` (class `Brain`).

Modelling conventions:
* Camera angles are rationals (`ℚ`); all angle values occurring in the source
  are small integers and the arithmetic performed on them (subtraction,
  comparison with ±180, ±360 shifts, division by a step count, scaling by a
  step index) is exact on rationals exactly as it is on IEEE doubles for these
  magnitudes.
* The external renderer (`mlab`) is the collaborator described by the spec:
  `mlab.view(az, el)` sets the camera and we record the orientation that was
  set; `mlab.savefig(fname)` writes an image file of the current figure size.
* The filesystem is an association list from filename to image size
  `(width, height)`; `Image.open` looks a file up and fails (IOError) when the
  file does not exist; `os.remove` deletes a file and fails (OSError) when the
  file does not exist.
* Python exceptions are the constructors of `PyErr`; `try/except SomeError`
  blocks catch exactly the matching constructors, every other error
  propagates.
* A Python value that is neither a `str` nor a `tuple` (the source explicitly
  handles this case in `show_view`: it raises ValueError) is modelled by the
  constructor `ViewSpec.other r`, where `r` stands for `str(value)` as used in
  `"%s" % view` filename formatting.
-/

namespace PySurfer

/-- A camera orientation: an (azimuth, elevation) pair of angles. -/
abbrev Orient := ℚ × ℚ

/-- A hemisphere view mapping: view name to camera orientation. -/
abbrev Viewdict := List (String × Orient)

/-- `lh_viewdict` from `viz.py`. -/
def lh_viewdict : Viewdict :=
  [("lateral", (180, 90)), ("medial", (0, 90)), ("anterior", (90, 90)),
   ("posterior", (-90, 90)), ("dorsal", (90, 0)), ("ventral", (-90, 180))]

/-- `rh_viewdict` from `viz.py`. -/
def rh_viewdict : Viewdict :=
  [("lateral", (0, 90)), ("medial", (0, -90)), ("anterior", (90, 90)),
   ("posterior", (-90, -90)), ("dorsal", (-90, 0)), ("ventral", (90, 0))]

/-- Python exceptions that the modelled code can raise. -/
inductive PyErr where
  | valueError (msg : String)
  | indexError
  | nameError (var : String)
  | attributeError (attr : String)
  | ioError (fname : String)
  | osError (fname : String)
  | keyError (key : String)
  deriving DecidableEq, Repr

/-- A view argument: a view-name string, a literal orientation tuple, or any
other Python value (`ViewSpec.other r` with `r = str(value)`). -/
inductive ViewSpec where
  | str (s : String)
  | tup (o : Orient)
  | other (r : String)
  deriving DecidableEq, Repr

/-- The keys of a view mapping (`self.viewdict` iterates over keys). -/
def view_keys (vd : Viewdict) : List String := vd.map Prod.fst

/-- The comprehension filter of `__xfm_view`: `view == k[:len(view)]`. -/
def key_match (view k : String) : Bool := view == k.take view.length

/-- `Brain.__xfm_view(view, out='s')`: normalize a string to an available view
name, raising `ValueError("bad view")` unless the string is a key or a leading
substring of exactly one key. -/
def xfm_view (vd : Viewdict) (view : String) : Except PyErr String :=
  if (List.lookup view vd).isSome then
    .ok view
  else
    match (view_keys vd).filter (key_match view) with
    | [k] => .ok k
    | _ => .error (.valueError "bad view")

/-- `Brain.__xfm_view(view, out='t')`: as `xfm_view` but returning
`self.viewdict[view]` (a `dict[key]` access, `KeyError` when absent). -/
def xfm_view_t (vd : Viewdict) (view : String) : Except PyErr Orient :=
  match xfm_view vd view with
  | .error err => .error err
  | .ok k =>
    match List.lookup k vd with
    | some o => .ok o
    | none => .error (.keyError k)

/-- `Brain.show_view(view)`.  The result is the list of orientations passed to
`mlab.view` (empty or a singleton).  When the string is already a key the
source takes no action at all; when `__xfm_view` raises ValueError the source
catches it and prints a message; a non-str non-tuple view raises ValueError. -/
def show_view (vd : Viewdict) (v : ViewSpec) : Except PyErr (List Orient) :=
  match v with
  | .str s =>
    if (List.lookup s vd).isSome then
      .ok []
    else
      match xfm_view vd s with
      | .ok k =>
        match List.lookup k vd with
        | some o => .ok [o]
        | none => .error (.keyError k)
      | .error (.valueError _) => .ok []
      | .error err => .error err
  | .tup o => .ok [o]
  | .other _ =>
    .error (.valueError "View must be one of the preset view names or a tuple")

/-- `Brain.show_view` as invoked on a brain object whose `viewdict` attribute
may never have been assigned (`Brain.__init__` only assigns it for hemi 'lh'
or 'rh').  The attribute is only read in the string branch
(`view in self.viewdict`); a missing attribute raises AttributeError there. -/
def show_view_obj (vdOpt : Option Viewdict) (v : ViewSpec) :
    Except PyErr (List Orient) :=
  match v with
  | .str _ =>
    match vdOpt with
    | none => .error (.attributeError "viewdict")
    | some vd => show_view vd v
  | .tup o => .ok [o]
  | .other _ =>
    .error (.valueError "View must be one of the preset view names or a tuple")

/-- The `viewdict` attribute assigned by `Brain.__init__` for a hemisphere id:
assigned only when `hemi` is 'lh' or 'rh'. -/
def brain_viewdict (hemi : String) : Option Viewdict :=
  if hemi == "lh" then some lh_viewdict
  else if hemi == "rh" then some rh_viewdict
  else none

/-- `Brain.__init__(subject_id, hemi, surf)` reduced to the claims' concerns:
the external figure/geometry setup succeeds, the `viewdict` attribute is
(maybe) assigned, and the constructor ends with `self.show_view("lat")`.
Returns the constructed object's `viewdict` attribute on success. -/
def brain_init (hemi : String) : Except PyErr (Option Viewdict) :=
  match show_view_obj (brain_viewdict hemi) (.str "lat") with
  | .error e => .error e
  | .ok _ => .ok (brain_viewdict hemi)

/-- The per-component wrap of `Brain.__min_diff`: subtract 360 when the raw
difference exceeds 180, add 360 when it is below -180. -/
def wrap_diff (x : ℚ) : ℚ :=
  if x > 180 then x - 360
  else if x < -180 then x + 360
  else x

/-- `Brain.__min_diff(beg, end)`: componentwise difference, wrapped.  The
source maps the wrap over the components of `np.array(end) - np.array(beg)`;
orientations are (azimuth, elevation) pairs. -/
def min_diff (b e : Orient) : Orient :=
  (wrap_diff (e.1 - b.1), wrap_diff (e.2 - b.2))

/-- The inner interpolation loop of `Brain.animate`: with `d = __min_diff(b, e)`,
`dx = d / float(n)` and `ov` the orientation just applied by `mlab.view(*b)`,
the loop sets the camera to `ov + i * dx` for `i` in `range(n)`.  This is the
list of those `n` orientations in order. -/
def interp_views (b e : Orient) (n : ℕ) : List Orient :=
  (List.range n).map (fun (i : ℕ) =>
    (b.1 + (i : ℚ) * ((min_diff b e).1 / n),
     b.2 + (i : ℚ) * ((min_diff b e).2 / n)))

/-- `if isinstance(v, str): b = self.__xfm_view(v, 't')` — a string is
resolved (possibly raising), anything else leaves the variable as it was
(possibly still unassigned, `none`). -/
def resolve_step (vd : Viewdict) (v : ViewSpec) (cur : Option Orient) :
    Except PyErr (Option Orient) :=
  match v with
  | .str s =>
    match xfm_view_t vd s with
    | .ok o => .ok (some o)
    | .error err => .error err
  | .tup _ => .ok cur
  | .other _ => .ok cur

/-- The body of the `for i, v in enumerate(views)` loop of `Brain.animate`
for current element `v` and remaining elements `rest` (so `views[i + 1]` is
`rest.head?`, and a missing successor raises IndexError).  `b` and `e` are the
loop-carried local variables (unassigned = `none`); reading an unassigned
local raises NameError.  On success returns the updated locals and the camera
trace extended by `mlab.view(*b)` followed by the `n` interpolation steps. -/
def animate_body (vd : Viewdict) (n : ℕ) (v : ViewSpec) (rest : List ViewSpec)
    (b e : Option Orient) (cam : List Orient) :
    Except PyErr (Option Orient × Option Orient × List Orient) :=
  match resolve_step vd v b with
  | .error err => .error err
  | .ok b' =>
    match rest.head? with
    | none => .error .indexError
    | some endv =>
      match resolve_step vd endv e with
      | .error err => .error err
      | .ok e' =>
        match b' with
        | none => .error (.nameError "b")
        | some bv =>
          match e' with
          | none => .error (.nameError "e")
          | some ev =>
            .ok (b', e', cam ++ bv :: interp_views bv ev n)

/-- The `for` loop of `Brain.animate` with its `except IndexError: pass`
handler: any other exception from the body propagates immediately. -/
def animate_loop (vd : Viewdict) (n : ℕ) :
    List ViewSpec → Option Orient → Option Orient → List Orient →
    Except PyErr (List Orient)
  | [], _, _, cam => .ok cam
  | v :: rest, b, e, cam =>
    match animate_body vd n v rest b e cam with
    | .error .indexError => animate_loop vd n rest b e cam
    | .error err => .error err
    | .ok (b', e', cam') => animate_loop vd n rest b' e' cam'

/-- `Brain.animate(views, n)`: returns the full camera trace (every
orientation passed to `mlab.view`) or the exception that escaped. -/
def animate (vd : Viewdict) (views : List ViewSpec) (n : ℕ) :
    Except PyErr (List Orient) :=
  animate_loop vd n views none none []

/-! ### Filesystem, image saving and montage composition -/

/-- The filesystem: existing image files, each with its raster size. -/
abbrev FS := List (String × (ℕ × ℕ))

/-- The names of the files on disk. -/
def fs_names (fs : FS) : List String := fs.map Prod.fst

/-- Does a filename start with the internal temp prefix "tmp" that
`save_montage` passes to `save_imageset`? -/
def has_tmp_prefix (s : String) : Bool := "tmp".data.isPrefixOf s.data

/-- Writing an image file (overwrites an existing file of the same name). -/
def fs_write (fs : FS) (name : String) (size : ℕ × ℕ) : FS :=
  (name, size) :: fs.filter (fun p => p.1 != name)

/-- `os.remove(fname)`: deletes the file, OSError when it does not exist. -/
def os_remove (fs : FS) (fname : String) : FS × Except PyErr Unit :=
  if (fs_names fs).contains fname then
    (fs.filter (fun p => p.1 != fname), .ok ())
  else
    (fs, .error (.osError fname))

/-- `for f in fnames: os.remove(f)` — sequential; an OSError propagates,
leaving the remaining files in place. -/
def remove_all : FS → List String → FS × Except PyErr Unit
  | fs, [] => (fs, .ok ())
  | fs, f :: rest =>
    match os_remove fs f with
    | (fs', .ok _) => remove_all fs' rest
    | (fs', .error e) => (fs', .error e)

/-- `fname[fname.rfind('.') + 1:]`: the characters after the last dot, the
whole name when there is no dot (`rfind` returns -1 then). -/
def ftype_of (fname : String) : String :=
  ⟨(fname.data.reverse.takeWhile (fun c => c != '.')).reverse⟩

/-- The allow-list of `Brain.save_image`. -/
def good_ftypes : List String :=
  ["png", "jpg", "bmp", "tiff", "ps", "eps", "pdf", "rib", "oogl", "iv",
   "vrml", "obj"]

/-- `Brain.save_image(fname)`: ValueError for an extension outside the
allow-list, otherwise `mlab.savefig(fname)` writes the current figure (of size
`figsize`) to `fname`. -/
def save_image (figsize : ℕ × ℕ) (fs : FS) (fname : String) :
    FS × Except PyErr Unit :=
  if good_ftypes.contains (ftype_of fname) then
    (fs_write fs fname figsize, .ok ())
  else
    (fs, .error (.valueError "Supported image types are png jpg bmp tiff ps eps pdf rib oogl iv vrml obj"))

/-- The filename built by `save_imageset`: `"%s_%s.%s" % (prefix, view,
filetype)` with `view` formatted by `str()`. -/
def view_label : ViewSpec → String
  | .str s => s
  | .tup o => reprStr o
  | .other r => r

/-- The generated filename for one view. -/
def gen_fname (pfx ftype : String) (v : ViewSpec) : String :=
  pfx ++ "_" ++ view_label v ++ "." ++ ftype

/-- The `for view in views` loop of `Brain.save_imageset`.  Each iteration
appends the filename to `images_written` before anything can fail, then calls
`show_view` (its ValueError caught by the outer handler, "Skipping ...") and
`save_image` (its ValueError caught by the inner handler, "Bad image type").
Any non-ValueError exception would propagate. -/
def save_imageset_loop (vd : Viewdict) (figsize : ℕ × ℕ) (pfx ftype : String) :
    FS → List String → List ViewSpec → FS × Except PyErr (List String)
  | fs, acc, [] => (fs, .ok acc)
  | fs, acc, v :: rest =>
    let fname := gen_fname pfx ftype v
    match show_view vd v with
    | .error (.valueError _) =>
      save_imageset_loop vd figsize pfx ftype fs (acc ++ [fname]) rest
    | .error err => (fs, .error err)
    | .ok _ =>
      match save_image figsize fs fname with
      | (fs', .ok _) =>
        save_imageset_loop vd figsize pfx ftype fs' (acc ++ [fname]) rest
      | (_, .error (.valueError _)) =>
        save_imageset_loop vd figsize pfx ftype fs (acc ++ [fname]) rest
      | (_, .error err) => (fs, .error err)

/-- `Brain.save_imageset(prefix, views, filetype)` for a non-string `views`
sequence (a bare string argument is rejected before the loop and is not
representable here).  Returns the final filesystem and `images_written`. -/
def save_imageset (vd : Viewdict) (figsize : ℕ × ℕ) (fs : FS) (pfx : String)
    (views : List ViewSpec) (ftype : String) : FS × Except PyErr (List String) :=
  save_imageset_loop vd figsize pfx ftype fs [] views

/-- `Image.open(fname)`: IOError when the file does not exist, otherwise the
decoded raster's size. -/
def image_open (fs : FS) (fname : String) : Except PyErr (ℕ × ℕ) :=
  match List.lookup fname fs with
  | some sz => .ok sz
  | none => .error (.ioError fname)

/-- `map(Image.open, fnames)` (eager, left to right; the first failure
raises). -/
def image_open_all (fs : FS) : List String → Except PyErr (List (ℕ × ℕ))
  | [] => .ok []
  | f :: rest =>
    match image_open fs f with
    | .error e => .error e
    | .ok sz =>
      match image_open_all fs rest with
      | .error e => .error e
      | .ok szs => .ok (sz :: szs)

/-- Python's `max()` over a sequence: ValueError on an empty sequence. -/
def py_max : List ℕ → Except PyErr ℕ
  | [] => .error (.valueError "max of empty sequence")
  | x :: xs => .ok (xs.foldl Nat.max x)

/-- The canvas-size computation of `Brain.save_montage`: for shape 'h',
`w = sum(i.size[0] ...)`, `h = max(i.size[1] ...)`; otherwise the roles are
swapped. -/
def montage_canvas (images : List (ℕ × ℕ)) (shape : Char) :
    Except PyErr (ℕ × ℕ) :=
  if shape == 'h' then
    match py_max (images.map Prod.snd) with
    | .error e => .error e
    | .ok h => .ok ((images.map Prod.fst).sum, h)
  else
    match py_max (images.map Prod.fst) with
    | .error e => .error e
    | .ok w => .ok (w, (images.map Prod.snd).sum)

/-- `Brain.save_montage(filename, order, shape)`.  `pil_ok` is the oracle for
whether PIL's `new.save(filename)` succeeds (its failure is caught and only
printed).  The paste loop only manipulates the in-memory canvas and touches no
file, so it is not represented beyond the canvas size.  Note the cleanup loop
`for f in fnames: os.remove(f)` runs only when control reaches it: an
exception from `Image.open` or from `max()` propagates first. -/
def save_montage (vd : Viewdict) (figsize : ℕ × ℕ) (fs : FS) (filename : String)
    (order : List ViewSpec) (shape : Char) (pil_ok : Bool) :
    FS × Except PyErr Unit :=
  match save_imageset vd figsize fs "tmp" order "png" with
  | (fs1, .error e) => (fs1, .error e)
  | (fs1, .ok fnames) =>
    match image_open_all fs1 fnames with
    | .error e => (fs1, .error e)
    | .ok images =>
      match montage_canvas images shape with
      | .error e => (fs1, .error e)
      | .ok wh =>
        let fs2 := if pil_ok then fs_write fs1 filename wh else fs1
        remove_all fs2 fnames

/-! ### Helper lemmas -/

/-- A key occurring among the mapped-out keys of an association list has a
successful lookup. -/
theorem lookup_isSome_of_mem_keys {β : Type} (l : List (String × β)) (k : String)
    (h : k ∈ l.map Prod.fst) : (List.lookup k l).isSome := by
  induction l with
  | nil => simp at h
  | cons p t ih =>
    obtain ⟨a, b⟩ := p
    by_cases hk : k = a
    · subst hk; simp [List.lookup]
    · have ht : k ∈ t.map Prod.fst := by
        rcases List.mem_cons.mp h with h | h
        · exact absurd h hk
        · exact h
      have hne : (k == a) = false := beq_eq_false_iff_ne.mpr hk
      simp only [List.lookup, hne]
      exact ih ht

/-- A successfully normalized view name is a key of the mapping. -/
theorem xfm_view_ok_lookup (vd : Viewdict) (p k : String)
    (h : xfm_view vd p = .ok k) : (List.lookup k vd).isSome := by
  rw [xfm_view] at h
  split at h
  · cases h; assumption
  · split at h
    · cases h
      rename_i heq
      have hmem : k ∈ List.filter (key_match p) (view_keys vd) := by
        rw [heq]
        exact List.mem_singleton_self _
      exact lookup_isSome_of_mem_keys vd k (List.mem_of_mem_filter hmem)
    · cases h

/-- The per-component wrap rule and its range, proved once about `wrap_diff`. -/
theorem wrap_diff_spec (x : ℚ) :
    (x > 180 → wrap_diff x = x - 360) ∧
    (x < -180 → wrap_diff x = x + 360) ∧
    (-180 ≤ x → x ≤ 180 → wrap_diff x = x) ∧
    (-540 ≤ x → x ≤ 540 → -180 ≤ wrap_diff x ∧ wrap_diff x ≤ 180) := by
  unfold wrap_diff
  split_ifs with h1 h2 <;>
    refine ⟨?_, ?_, ?_, ?_⟩ <;> intros <;>
      first
        | rfl
        | linarith
        | (constructor <;> linarith)

/-- Folding `Nat.max` over a list starting from `x` yields an element of
`x :: xs` that bounds `x` and every element of `xs`. -/
theorem foldl_max_spec (xs : List ℕ) (x : ℕ) :
    xs.foldl Nat.max x ∈ x :: xs ∧ x ≤ xs.foldl Nat.max x ∧
    ∀ y ∈ xs, y ≤ xs.foldl Nat.max x := by
  induction xs generalizing x with
  | nil => exact ⟨by simp, le_refl x, by simp⟩
  | cons z t ih =>
    obtain ⟨hmem, hle, hub⟩ := ih (Nat.max x z)
    have hfold : (z :: t).foldl Nat.max x = t.foldl Nat.max (Nat.max x z) := rfl
    have hxm : x ≤ Nat.max x z := le_max_left x z
    have hzm : z ≤ Nat.max x z := le_max_right x z
    refine ⟨?_, ?_, ?_⟩
    · rw [hfold]
      rcases List.mem_cons.mp hmem with hF | hF
      · rcases le_total x z with hxz | hzx
        · have hzz : Nat.max x z = z := max_eq_right hxz
          rw [hF, hzz]
          exact List.mem_cons_of_mem x (List.mem_cons_self z t)
        · have hxx : Nat.max x z = x := max_eq_left hzx
          rw [hF, hxx]
          exact List.mem_cons_self x (z :: t)
      · exact List.mem_cons_of_mem x (List.mem_cons_of_mem z hF)
    · rw [hfold]
      exact le_trans hxm hle
    · intro y hy
      rw [hfold]
      rcases List.mem_cons.mp hy with h | hyt
      · rw [h]
        exact le_trans hzm hle
      · exact hub y hyt

/-- `show_view` on a string argument never raises: both the key branch and
the abbreviation branch return normally (the only resolution failure is a
ValueError, caught inside `show_view` itself). -/
theorem show_view_str_ok (vd : Viewdict) (s : String) :
    ∃ l, show_view vd (.str s) = .ok l := by
  by_cases h : (List.lookup s vd).isSome
  · exact ⟨[], by simp [show_view, h]⟩
  · cases hx : xfm_view vd s with
    | ok k =>
      have hk := xfm_view_ok_lookup vd s k hx
      cases hl : List.lookup k vd with
      | some o => exact ⟨[o], by simp [show_view, h, hx, hl]⟩
      | none => rw [hl] at hk; simp at hk
    | error err =>
      have herr : err = .valueError "bad view" := by
        rw [xfm_view] at hx
        split at hx
        · cases hx
        · split at hx
          · cases hx
          · cases hx; rfl
      subst herr
      exact ⟨[], by simp [show_view, h, hx]⟩

/-- Writing a file preserves every existing filename. -/
theorem fs_write_names_mono (fs : FS) (nm : String) (sz : ℕ × ℕ) (g : String)
    (hg : g ∈ fs_names fs) : g ∈ fs_names (fs_write fs nm sz) := by
  by_cases h : g = nm
  · subst h
    simp [fs_names, fs_write]
  · obtain ⟨p, hp, rfl⟩ := List.mem_map.mp hg
    simp only [fs_names, fs_write, List.map_cons]
    refine List.mem_cons_of_mem _ (List.mem_map.mpr ⟨p, List.mem_filter.mpr ⟨hp, ?_⟩, rfl⟩)
    simpa using h

/-- Writing a file adds at most its own name. -/
theorem fs_write_names_bound (fs : FS) (nm : String) (sz : ℕ × ℕ) (g : String)
    (hg : g ∈ fs_names (fs_write fs nm sz)) : g = nm ∨ g ∈ fs_names fs := by
  simp only [fs_names, fs_write, List.map_cons] at hg
  rcases List.mem_cons.mp hg with h | h
  · exact Or.inl h
  · obtain ⟨p, hp, rfl⟩ := List.mem_map.mp h
    exact Or.inr (List.mem_map.mpr ⟨p, List.mem_of_mem_filter hp, rfl⟩)

/-- Unfolding of `save_imageset` on a batch of plain string/tuple views with
acceptable generated filenames: every view is captured, the returned list is
the generated filename of every view in order, existing files persist, only
generated filenames are added, and every generated file exists afterwards. -/
theorem save_imageset_loop_ok (vd : Viewdict) (figsize : ℕ × ℕ)
    (pfx ftype : String) (views : List ViewSpec) :
    ∀ (fs : FS) (acc : List String),
    (∀ v ∈ views, (match v with | .other _ => false | _ => true) = true) →
    (∀ v ∈ views, good_ftypes.contains (ftype_of (gen_fname pfx ftype v)) = true) →
    ∃ fs',
      save_imageset_loop vd figsize pfx ftype fs acc views
        = (fs', .ok (acc ++ views.map (gen_fname pfx ftype))) ∧
      (∀ g ∈ fs_names fs, g ∈ fs_names fs') ∧
      (∀ g ∈ fs_names fs', g ∈ fs_names fs ∨ g ∈ views.map (gen_fname pfx ftype)) ∧
      (∀ v ∈ views, gen_fname pfx ftype v ∈ fs_names fs') := by
  induction views with
  | nil =>
    intro fs acc _ _
    exact ⟨fs, by simp [save_imageset_loop], fun g h => h, fun g h => Or.inl h, by simp⟩
  | cons v rest ih =>
    intro fs acc hv hf
    obtain ⟨l, hsv⟩ : ∃ l, show_view vd v = .ok l := by
      cases v with
      | str s => exact show_view_str_ok vd s
      | tup o => exact ⟨[o], rfl⟩
      | other r => simpa using hv _ (List.mem_cons_self _ _)
    have hft := hf v (List.mem_cons_self _ _)
    have hsi : save_image figsize fs (gen_fname pfx ftype v)
        = (fs_write fs (gen_fname pfx ftype v) figsize, .ok ()) := by
      rw [save_image, if_pos hft]
    obtain ⟨fs', heq, hmono, hbound, hpresent⟩ :=
      ih (fs_write fs (gen_fname pfx ftype v) figsize) (acc ++ [gen_fname pfx ftype v])
        (fun u hu => hv u (List.mem_cons_of_mem _ hu))
        (fun u hu => hf u (List.mem_cons_of_mem _ hu))
    refine ⟨fs', ?_, ?_, ?_, ?_⟩
    · simp only [save_imageset_loop, hsv, hsi]
      rw [heq]
      simp
    · intro g hg
      exact hmono g (fs_write_names_mono fs _ figsize g hg)
    · intro g hg
      rcases hbound g hg with h | h
      · rcases fs_write_names_bound fs _ figsize g h with h' | h'
        · exact Or.inr (by rw [h', List.map_cons]; exact List.mem_cons_self _ _)
        · exact Or.inl h'
      · exact Or.inr (by rw [List.map_cons]; exact List.mem_cons_of_mem _ h)
    · intro u hu
      rcases List.mem_cons.mp hu with h | hu'
      · subst h
        refine hmono _ ?_
        simp [fs_names, fs_write]
      · exact hpresent u hu'

/-- When every listed file exists, `map(Image.open, ...)` succeeds, with one
raster per file. -/
theorem image_open_all_ok (fs : FS) (fnames : List String)
    (h : ∀ f ∈ fnames, f ∈ fs_names fs) :
    ∃ images, image_open_all fs fnames = .ok images ∧
      images.length = fnames.length := by
  induction fnames with
  | nil => exact ⟨[], rfl, rfl⟩
  | cons f rest ih =>
    obtain ⟨images, hi, hlen⟩ := ih (fun g hg => h g (List.mem_cons_of_mem _ hg))
    have hsome : (List.lookup f fs).isSome :=
      lookup_isSome_of_mem_keys fs f (h f (List.mem_cons_self _ _))
    cases hl : List.lookup f fs with
    | none => rw [hl] at hsome; simp at hsome
    | some sz =>
      exact ⟨sz :: images, by simp [image_open_all, image_open, hl, hi],
             by simp [hlen]⟩

/-- Removing a list of pairwise-distinct existing files succeeds and leaves
exactly the other files. -/
theorem remove_all_spec (fnames : List String) :
    ∀ fs : FS, fnames.Nodup → (∀ f ∈ fnames, f ∈ fs_names fs) →
    (remove_all fs fnames).2 = .ok () ∧
    (∀ g ∈ fs_names (remove_all fs fnames).1, g ∈ fs_names fs ∧ g ∉ fnames) := by
  induction fnames with
  | nil =>
    intro fs _ _
    exact ⟨rfl, fun g hg => ⟨hg, by simp⟩⟩
  | cons f rest ih =>
    intro fs hnd hpres
    have hf : f ∈ fs_names fs := hpres f (List.mem_cons_self _ _)
    have hcont : (fs_names fs).contains f = true := List.elem_iff.mpr hf
    have hrem : os_remove fs f = (fs.filter (fun p => p.1 != f), .ok ()) := by
      rw [os_remove, if_pos hcont]
    have hrest : ∀ g ∈ rest, g ∈ fs_names (fs.filter (fun p => p.1 != f)) := by
      intro g hg
      have hgf : g ≠ f := fun h => (List.nodup_cons.mp hnd).1 (h ▸ hg)
      obtain ⟨p, hp, rfl⟩ := List.mem_map.mp (hpres g (List.mem_cons_of_mem _ hg))
      exact List.mem_map.mpr ⟨p, List.mem_filter.mpr ⟨hp, by simpa using hgf⟩, rfl⟩
    obtain ⟨hok, hrec⟩ := ih (fs.filter (fun p => p.1 != f))
      (List.nodup_cons.mp hnd).2 hrest
    have hstep : remove_all fs (f :: rest)
        = remove_all (fs.filter (fun p => p.1 != f)) rest := by
      simp only [remove_all, hrem]
    constructor
    · rw [hstep]; exact hok
    · intro g hg
      rw [hstep] at hg
      obtain ⟨hg1, hg2⟩ := hrec g hg
      obtain ⟨p, hp, rfl⟩ := List.mem_map.mp hg1
      obtain ⟨hpfs, hpne⟩ := List.mem_filter.mp hp
      refine ⟨List.mem_map.mpr ⟨p, hpfs, rfl⟩, ?_⟩
      intro hmem
      rcases List.mem_cons.mp hmem with h | h
      · have hne : p.1 ≠ f := by simpa using hpne
        exact hne h
      · exact hg2 h

/-- The generated extension: for any prefix and view label, the text after
the last dot of `"..." ++ "." ++ "png"` is exactly "png". -/
theorem ftype_of_append_png (s : String) : ftype_of (s ++ "." ++ "png") = "png" := by
  have h : (s ++ "." ++ "png").data = s.data ++ '.' :: 'p' :: 'n' :: 'g' :: [] := by
    simp [String.data_append]
  rw [ftype_of, h]
  simp [List.takeWhile_cons]

/-- Every filename generated with filetype "png" passes the allow-list. -/
theorem gen_fname_png_good (pfx : String) (v : ViewSpec) :
    good_ftypes.contains (ftype_of (gen_fname pfx "png" v)) = true := by
  have h : ftype_of (gen_fname pfx "png" v) = "png" :=
    ftype_of_append_png (pfx ++ "_" ++ view_label v)
  rw [h]
  rfl

/-- On a non-empty list, Python's `max` succeeds and returns the maximum. -/
theorem py_max_spec (l : List ℕ) (hne : l ≠ []) :
    ∃ m, py_max l = .ok m ∧ m ∈ l ∧ ∀ y ∈ l, y ≤ m := by
  match l with
  | [] => exact absurd rfl hne
  | x :: xs =>
    obtain ⟨hmem, hle, hub⟩ := foldl_max_spec xs x
    refine ⟨xs.foldl Nat.max x, rfl, hmem, ?_⟩
    intro y hy
    rcases List.mem_cons.mp hy with rfl | hyt
    · exact hle
    · exact hub y hyt

/-! ### Claims -/

/-- C1 (counterexample): a `save_montage` call whose view order contains a
non-string non-tuple entry leaves a temp file behind: the entry's file is
listed but never written, `Image.open` on it raises before the cleanup loop
is reached, and the already-created "tmp_lat.png" survives on disk. -/
theorem save_montage_cleanup_cex :
    (save_montage lh_viewdict (800, 800) [] "out.png"
        [ViewSpec.str "lat", ViewSpec.other "42"] 'h' true).2
      = .error (.ioError "tmp_42.png") ∧
    "tmp_lat.png" ∈ fs_names (save_montage lh_viewdict (800, 800) [] "out.png"
        [ViewSpec.str "lat", ViewSpec.other "42"] 'h' true).1 ∧
    has_tmp_prefix "tmp_lat.png" = true := by
  refine ⟨by rfl, by decide, by rfl⟩

/-- C1 (amended): when every entry of the order is a string or tuple view
spec (so each listed temp file is actually created) and the generated temp
filenames are pairwise distinct, a `save_montage` call deletes every temp
file before returning, whether or not writing the composite image succeeds;
with a non-created listed file the decode error instead propagates before
cleanup (see the counterexample). -/
theorem save_montage_cleanup_amended (vd : Viewdict) (figsize : ℕ × ℕ)
    (fs : FS) (filename : String) (order : List ViewSpec) (shape : Char)
    (pil_ok : Bool)
    (hviews : ∀ v ∈ order, (match v with | .other _ => false | _ => true) = true)
    (hnd : (order.map (gen_fname "tmp" "png")).Nodup)
    (hfs : ∀ g ∈ fs_names fs, has_tmp_prefix g = false)
    (hfn : has_tmp_prefix filename = false) :
    ∀ g ∈ fs_names (save_montage vd figsize fs filename order shape pil_ok).1,
      has_tmp_prefix g = false := by
  by_cases hord : order = []
  · subst hord
    have hcv0 : montage_canvas ([] : List (ℕ × ℕ)) shape
        = .error (.valueError "max of empty sequence") := by
      rw [montage_canvas]
      by_cases hs : shape == 'h'
      · rw [if_pos hs]; rfl
      · rw [if_neg hs]; rfl
    have hmont : save_montage vd figsize fs filename [] shape pil_ok
        = (fs, .error (.valueError "max of empty sequence")) := by
      simp only [save_montage, save_imageset, save_imageset_loop,
        image_open_all, hcv0]
    rw [hmont]
    exact hfs
  · obtain ⟨fs1, heq1, hmono, hbound, hpresent⟩ :=
      save_imageset_loop_ok vd figsize "tmp" "png" order fs [] hviews
        (fun v _ => gen_fname_png_good "tmp" v)
    have heq1' : save_imageset vd figsize fs "tmp" order "png"
        = (fs1, .ok (order.map (gen_fname "tmp" "png"))) := by
      rw [save_imageset, heq1]
      simp
    have hpres1 : ∀ f ∈ order.map (gen_fname "tmp" "png"), f ∈ fs_names fs1 := by
      intro f hf
      obtain ⟨v, hv, rfl⟩ := List.mem_map.mp hf
      exact hpresent v hv
    obtain ⟨images, hopen, hilen⟩ :=
      image_open_all_ok fs1 (order.map (gen_fname "tmp" "png")) hpres1
    have himne : images ≠ [] := by
      intro h
      subst h
      simp only [List.length_nil, List.length_map] at hilen
      exact hord (List.length_eq_zero.mp hilen.symm)
    obtain ⟨wh, hcv⟩ : ∃ wh, montage_canvas images shape = .ok wh := by
      rw [montage_canvas]
      by_cases hs : shape == 'h'
      · rw [if_pos hs]
        obtain ⟨m, hm, _, _⟩ := py_max_spec (images.map Prod.snd) (by simpa using himne)
        rw [hm]
        exact ⟨_, rfl⟩
      · rw [if_neg hs]
        obtain ⟨m, hm, _, _⟩ := py_max_spec (images.map Prod.fst) (by simpa using himne)
        rw [hm]
        exact ⟨_, rfl⟩
    have hmont : save_montage vd figsize fs filename order shape pil_ok
        = remove_all (if pil_ok then fs_write fs1 filename wh else fs1)
            (order.map (gen_fname "tmp" "png")) := by
      simp only [save_montage, heq1', hopen, hcv]
    have hpres2 : ∀ f ∈ order.map (gen_fname "tmp" "png"),
        f ∈ fs_names (if pil_ok then fs_write fs1 filename wh else fs1) := by
      intro f hf
      cases pil_ok with
      | true => simpa using fs_write_names_mono fs1 filename wh f (hpres1 f hf)
      | false => simpa using hpres1 f hf
    obtain ⟨_, hafter⟩ :=
      remove_all_spec (order.map (gen_fname "tmp" "png"))
        (if pil_ok then fs_write fs1 filename wh else fs1) hnd hpres2
    rw [hmont]
    intro g hg
    obtain ⟨hg2, hgnot⟩ := hafter g hg
    have hg1 : g = filename ∨ g ∈ fs_names fs1 := by
      cases pil_ok with
      | true => exact fs_write_names_bound fs1 filename wh g (by simpa using hg2)
      | false => exact Or.inr (by simpa using hg2)
    rcases hg1 with rfl | hg1
    · exact hfn
    · rcases hbound g hg1 with h | h
      · exact hfs g h
      · exact absurd h hgnot

/-- C1 (witness): the amended cleanup guarantee at a concrete clean call: the
montage over ["lat", "med"] leaves the composite "out.png" (not
tmp-prefixed) as the only relevant file. -/
theorem save_montage_cleanup_amended_witness :
    has_tmp_prefix "out.png" = false := by
  have h := save_montage_cleanup_amended lh_viewdict (800, 800) [] "out.png"
    [ViewSpec.str "lat", ViewSpec.str "med"] 'h' true (by decide) (by decide)
    (by intro g hg; simp [fs_names] at hg) (by decide)
  exact h "out.png" (by decide)

/-- C2 (counterexample): the per-component result of `__min_diff` is not
always in the half-open range (-180, 180]: a raw difference of exactly -180
is left at -180 (excluded from that range), and a raw difference of 541 wraps
to 181 (beyond it). -/
theorem min_diff_range_cex :
    (min_diff (180, 90) (0, 90)).1 = -180 ∧
    ¬ (-180 < (min_diff (180, 90) (0, 90)).1) ∧
    (min_diff (0, 0) (541, 0)).1 = 181 ∧
    ¬ ((min_diff (0, 0) (541, 0)).1 ≤ 180) := by
  norm_num [min_diff, wrap_diff]

/-- C2 (amended): each component of `__min_diff` equals the raw difference
`end - start` minus 360 when it exceeds 180, plus 360 when it is below -180,
and unchanged otherwise; whenever the raw component difference lies in
[-540, 540] the result lies in the closed range [-180, 180]. -/
theorem min_diff_wrap_amended (b e : Orient) :
    ((e.1 - b.1 > 180 → (min_diff b e).1 = e.1 - b.1 - 360) ∧
     (e.1 - b.1 < -180 → (min_diff b e).1 = e.1 - b.1 + 360) ∧
     (-180 ≤ e.1 - b.1 → e.1 - b.1 ≤ 180 → (min_diff b e).1 = e.1 - b.1) ∧
     (-540 ≤ e.1 - b.1 → e.1 - b.1 ≤ 540 →
        -180 ≤ (min_diff b e).1 ∧ (min_diff b e).1 ≤ 180)) ∧
    ((e.2 - b.2 > 180 → (min_diff b e).2 = e.2 - b.2 - 360) ∧
     (e.2 - b.2 < -180 → (min_diff b e).2 = e.2 - b.2 + 360) ∧
     (-180 ≤ e.2 - b.2 → e.2 - b.2 ≤ 180 → (min_diff b e).2 = e.2 - b.2) ∧
     (-540 ≤ e.2 - b.2 → e.2 - b.2 ≤ 540 →
        -180 ≤ (min_diff b e).2 ∧ (min_diff b e).2 ≤ 180)) :=
  ⟨wrap_diff_spec (e.1 - b.1), wrap_diff_spec (e.2 - b.2)⟩

/-- C2 (witness): the amended wrap rule and range at start (0, 0),
end (200, -200). -/
theorem min_diff_wrap_amended_witness :
    (min_diff (0, 0) (200, -200)).1 = -160 ∧
    -180 ≤ (min_diff (0, 0) (200, -200)).1 := by
  have h := min_diff_wrap_amended (0, 0) (200, -200)
  constructor
  · have h1 := h.1.1 (by norm_num)
    norm_num at h1
    exact h1
  · exact (h.1.2.2.2 (by norm_num) (by norm_num)).1

/-- C3 (code bug, evaluated): `save_imageset` appends the filename to
`images_written` before attempting the save, so with an unsupported filetype
the name "out_lat.foo" is returned even though the filesystem still contains
no file at all. -/
theorem save_imageset_returns_unwritten :
    save_imageset lh_viewdict (800, 800) [] "out" [ViewSpec.str "lat"] "foo"
      = ([], .ok ["out_lat.foo"]) := by rfl

/-- C4 (counterexample): in `animate`, a view name that fails to resolve is
not swallowed: the ValueError from `__xfm_view` propagates to the caller and
the animation is aborted (here the remaining step "lat" is never reached). -/
theorem animate_swallow_cex :
    animate lh_viewdict [ViewSpec.str "foo", ViewSpec.str "lat"] 10
      = .error (.valueError "bad view") := by rfl

/-- C4 (amended): `animate` catches only IndexError; when resolving a view
name in the path raises ValueError, that error propagates to the caller and
aborts the whole animation at that step. -/
theorem animate_resolve_error_aborts (vd : Viewdict) (s m : String)
    (rest : List ViewSpec) (n : ℕ)
    (h : xfm_view_t vd s = .error (.valueError m)) :
    animate vd (ViewSpec.str s :: rest) n = .error (.valueError m) := by
  simp [animate, animate_loop, animate_body, resolve_step, h]

/-- C4 (witness): the amended propagation at the unresolvable name "zzz". -/
theorem animate_resolve_error_aborts_witness :
    animate lh_viewdict [ViewSpec.str "zzz"] 0
      = .error (.valueError "bad view") :=
  animate_resolve_error_aborts lh_viewdict "zzz" "bad view" [] 0 (by rfl)

/-- C6 (counterexample): `show_view` with the unknown single view name "zzz"
returns normally (no camera change, error swallowed) instead of propagating
the error to the caller. -/
theorem show_view_propagation_cex :
    show_view lh_viewdict (.str "zzz") = .ok [] := by rfl

/-- C6 (amended): an unknown or ambiguous view name passed to `show_view` is
recovered locally: the ValueError of `__xfm_view` is caught, a message is
printed, and `show_view` returns normally without setting the camera; only a
view that is neither a string nor a tuple raises to the caller. -/
theorem show_view_swallows_resolution_error (vd : Viewdict) (s m r : String) :
    (xfm_view vd s = .error (.valueError m) → show_view vd (.str s) = .ok []) ∧
    show_view vd (.other r) =
      .error (.valueError "View must be one of the preset view names or a tuple") := by
  constructor
  · intro h
    have hl : (List.lookup s vd).isSome = false := by
      by_cases hs : (List.lookup s vd).isSome
      · rw [xfm_view, if_pos hs] at h; cases h
      · exact Bool.of_not_eq_true hs
    simp [show_view, hl, h]
  · rfl

/-- C6 (witness): the swallowed error at "qq" and the raising non-view. -/
theorem show_view_swallows_resolution_error_witness :
    show_view lh_viewdict (.str "qq") = .ok [] ∧
    show_view lh_viewdict (.other "42") =
      .error (.valueError "View must be one of the preset view names or a tuple") := by
  have h := show_view_swallows_resolution_error lh_viewdict "qq" "bad view" "42"
  exact ⟨h.1 (by rfl), h.2⟩

/-- C9 (counterexample): with a tuple first element and an unresolvable
string second element, `animate` fails with the resolution ValueError, not
with a NameError as the claim states. -/
theorem animate_tuple_head_cex :
    animate lh_viewdict [ViewSpec.tup (0, 0), ViewSpec.str "zzz"] 5
      = .error (.valueError "bad view") := by rfl

/-- C9 (amended): when the first element of a length-≥2 path is a literal
tuple, the start variable is never assigned and the call fails with an
unhandled error (only IndexError is caught): a NameError on the start
variable when the second element is not a string or resolves successfully,
and the resolution ValueError when the second element is an unresolvable
string. -/
theorem animate_tuple_head_unassigned (vd : Viewdict) (t : Orient)
    (v2 : ViewSpec) (rest : List ViewSpec) (n : ℕ) :
    ((∀ s, v2 ≠ ViewSpec.str s) →
       animate vd (ViewSpec.tup t :: v2 :: rest) n = .error (.nameError "b")) ∧
    (∀ s o, v2 = ViewSpec.str s → xfm_view_t vd s = .ok o →
       animate vd (ViewSpec.tup t :: v2 :: rest) n = .error (.nameError "b")) ∧
    (∀ s m, v2 = ViewSpec.str s → xfm_view_t vd s = .error (.valueError m) →
       animate vd (ViewSpec.tup t :: v2 :: rest) n = .error (.valueError m)) := by
  refine ⟨?_, ?_, ?_⟩
  · intro hns
    cases v2 with
    | str s => exact absurd rfl (hns s)
    | tup o => simp [animate, animate_loop, animate_body, resolve_step]
    | other r => simp [animate, animate_loop, animate_body, resolve_step]
  · intro s o hv hx
    subst hv
    simp [animate, animate_loop, animate_body, resolve_step, hx]
  · intro s m hv hx
    subst hv
    simp [animate, animate_loop, animate_body, resolve_step, hx]

/-- C9 (witness): the NameError at a tuple-tuple path of length 2. -/
theorem animate_tuple_head_unassigned_witness :
    animate lh_viewdict [ViewSpec.tup (0, 0), ViewSpec.tup (1, 1)] 3
      = .error (.nameError "b") :=
  (animate_tuple_head_unassigned lh_viewdict (0, 0) (ViewSpec.tup (1, 1)) [] 3).1
    (fun _ h => ViewSpec.noConfusion h)

/-- C10: constructing a `Brain` with a hemisphere other than 'lh' or 'rh'
leaves the `viewdict` attribute unassigned, so the constructor's own
`show_view("lat")` fails with an AttributeError (not a domain-specific
error); construction succeeds exactly for hemi 'lh' and 'rh'. -/
theorem brain_init_hemi_domain (hemi : String) :
    (hemi ≠ "lh" → hemi ≠ "rh" →
       brain_init hemi = .error (.attributeError "viewdict")) ∧
    ((∃ r, brain_init hemi = .ok r) ↔ hemi = "lh" ∨ hemi = "rh") := by
  by_cases h1 : hemi = "lh"
  · subst h1
    refine ⟨fun h _ => absurd rfl h, ?_⟩
    exact ⟨fun _ => Or.inl rfl, fun _ => ⟨some lh_viewdict, by rfl⟩⟩
  · by_cases h2 : hemi = "rh"
    · subst h2
      refine ⟨fun _ h => absurd rfl h, ?_⟩
      exact ⟨fun _ => Or.inr rfl, fun _ => ⟨some rh_viewdict, by rfl⟩⟩
    · have hb : brain_viewdict hemi = none := by
        simp [brain_viewdict, h1, h2]
      refine ⟨fun _ _ => by simp [brain_init, show_view_obj, hb], ?_⟩
      constructor
      · rintro ⟨r, hr⟩
        simp [brain_init, show_view_obj, hb] at hr
      · rintro (rfl | rfl)
        · exact absurd rfl h1
        · exact absurd rfl h2

/-- C5: for either hemisphere mapping and a non-empty string that is not
itself a key, a prefix matching exactly one key resolves exactly as that key
does (in both the string and the tuple output modes of `__xfm_view`), and a
prefix matching zero or at least two keys makes `__xfm_view` raise
`ValueError("bad view")`. -/
theorem xfm_view_prefix_resolution (vd : Viewdict) (p k : String)
    (_hvd : vd = lh_viewdict ∨ vd = rh_viewdict) (_hp : p ≠ "")
    (hlook : List.lookup p vd = none) :
    ((view_keys vd).filter (key_match p) = [k] →
       xfm_view vd p = .ok k ∧ xfm_view vd p = xfm_view vd k ∧
       xfm_view_t vd p = xfm_view_t vd k) ∧
    (((view_keys vd).filter (key_match p)).length ≠ 1 →
       xfm_view vd p = .error (.valueError "bad view")) := by
  have hnp : ¬ ((List.lookup p vd).isSome = true) := by simp [hlook]
  constructor
  · intro hfilter
    have hxp : xfm_view vd p = .ok k := by
      rw [xfm_view, if_neg hnp, hfilter]
    have hkmem : k ∈ view_keys vd := by
      have hmem : k ∈ (view_keys vd).filter (key_match p) := by
        rw [hfilter]
        exact List.mem_singleton_self _
      exact List.mem_of_mem_filter hmem
    have hks : (List.lookup k vd).isSome := lookup_isSome_of_mem_keys vd k hkmem
    have hxk : xfm_view vd k = .ok k := by rw [xfm_view, if_pos hks]
    refine ⟨hxp, by rw [hxp, hxk], ?_⟩
    rw [xfm_view_t, xfm_view_t, hxp, hxk]
  · intro hlen
    rw [xfm_view, if_neg hnp]
    rcases hf : (view_keys vd).filter (key_match p) with _ | ⟨a, _ | ⟨b, t⟩⟩
    · rfl
    · rw [hf] at hlen
      exact absurd rfl hlen
    · rfl

/-- C5 (witness): "lat" resolves as "lateral" does in the left hemisphere and
the zero-match string "zz" raises on the right hemisphere. -/
theorem xfm_view_prefix_resolution_witness :
    (xfm_view lh_viewdict "lat" = .ok "lateral" ∧
     xfm_view lh_viewdict "lat" = xfm_view lh_viewdict "lateral" ∧
     xfm_view_t lh_viewdict "lat" = xfm_view_t lh_viewdict "lateral") ∧
    xfm_view rh_viewdict "zz" = .error (.valueError "bad view") := by
  constructor
  · exact (xfm_view_prefix_resolution lh_viewdict "lat" "lateral" (Or.inl rfl)
      (by decide) (by rfl)).1 (by rfl)
  · exact (xfm_view_prefix_resolution rh_viewdict "zz" "lateral" (Or.inr rfl)
      (by decide) (by rfl)).2 (by decide)

/-- C7: for a non-empty image list, the montage canvas for shape 'h' has
width the sum of the component widths and height the maximum of the component
heights; for shape 'v' the roles are swapped; in particular images sized
(10,20) and (15,20) give a (25,20) canvas horizontally and (15,40)
vertically. -/
theorem montage_canvas_size :
    (∀ images : List (ℕ × ℕ), images ≠ [] →
      (∃ w h, montage_canvas images 'h' = .ok (w, h) ∧
         w = (images.map Prod.fst).sum ∧ h ∈ images.map Prod.snd ∧
         ∀ y ∈ images.map Prod.snd, y ≤ h) ∧
      (∃ w h, montage_canvas images 'v' = .ok (w, h) ∧
         h = (images.map Prod.snd).sum ∧ w ∈ images.map Prod.fst ∧
         ∀ x ∈ images.map Prod.fst, x ≤ w)) ∧
    montage_canvas [(10, 20), (15, 20)] 'h' = .ok (25, 20) ∧
    montage_canvas [(10, 20), (15, 20)] 'v' = .ok (15, 40) := by
  refine ⟨?_, by rfl, by rfl⟩
  intro images hne
  have hsne : images.map Prod.snd ≠ [] := by simpa using hne
  have hfne : images.map Prod.fst ≠ [] := by simpa using hne
  obtain ⟨mh, hmh, hmemh, hubh⟩ := py_max_spec _ hsne
  obtain ⟨mw, hmw, hmemw, hubw⟩ := py_max_spec _ hfne
  constructor
  · exact ⟨_, mh, by simp [montage_canvas, hmh], rfl, hmemh, hubh⟩
  · exact ⟨mw, _, by simp [montage_canvas, hmw], rfl, hmemw, hubw⟩

/-- C7 (witness): the canvas size characterization at the single image
(10, 20). -/
theorem montage_canvas_size_witness :
    ∃ w h, montage_canvas [((10 : ℕ), (20 : ℕ))] 'h' = .ok (w, h) ∧
      w = ([((10 : ℕ), (20 : ℕ))].map Prod.fst).sum ∧
      h ∈ [((10 : ℕ), (20 : ℕ))].map Prod.snd ∧
      ∀ y ∈ [((10 : ℕ), (20 : ℕ))].map Prod.snd, y ≤ h :=
  (montage_canvas_size.1 [(10, 20)] (by decide)).1

/-- C8: for a positive step count `n`, the interpolation loop of `animate`
sets the camera to exactly `n` orientations, the i-th being
`start + i * (min_diff(start, end) / n)`; with equal endpoints all `n`
orientations equal the start; and an `animate` run over the resolvable path
["lat", "med"] produces exactly the start orientation followed by those
interpolation steps. -/
theorem animate_interp_steps (b e : Orient) (n : ℕ) (_hn : 0 < n) :
    (interp_views b e n).length = n ∧
    (∀ i, i < n → (interp_views b e n)[i]? =
       some (b.1 + i * ((min_diff b e).1 / n), b.2 + i * ((min_diff b e).2 / n))) ∧
    interp_views b b n = List.replicate n b ∧
    animate lh_viewdict [ViewSpec.str "lat", ViewSpec.str "med"] n =
      .ok ((180, 90) :: interp_views (180, 90) (0, 90) n) := by
  refine ⟨by rw [interp_views, List.length_map, List.length_range], ?_, ?_, ?_⟩
  · intro i hi
    rw [interp_views, List.getElem?_map, List.getElem?_range hi, Option.map_some']
  · have h0 : min_diff b b = (0, 0) := by
      norm_num [min_diff, wrap_diff]
    refine List.eq_replicate_iff.mpr ⟨?_, ?_⟩
    · rw [interp_views, List.length_map, List.length_range]
    · intro y hy
      rw [interp_views] at hy
      obtain ⟨i, _, rfl⟩ := List.mem_map.mp hy
      rw [h0]
      simp
  · have hlat : xfm_view_t lh_viewdict "lat" = .ok (180, 90) := by rfl
    have hmed : xfm_view_t lh_viewdict "med" = .ok (0, 90) := by rfl
    simp [animate, animate_loop, animate_body, resolve_step, hlat, hmed]

/-- C8 (witness): the step count and constant-path behavior at n = 2. -/
theorem animate_interp_steps_witness :
    (interp_views (0, 0) (90, 0) 2).length = 2 ∧
    interp_views (0, 0) (0, 0) 2 = List.replicate 2 ((0 : ℚ), (0 : ℚ)) := by
  refine ⟨(animate_interp_steps (0, 0) (90, 0) 2 (by norm_num)).1, ?_⟩
  exact (animate_interp_steps (0, 0) (0, 0) 2 (by norm_num)).2.2.1

/-- C10 (witness): AttributeError at hemi "xx", success at "lh". -/
theorem brain_init_hemi_domain_witness :
    brain_init "xx" = .error (.attributeError "viewdict") ∧
    (∃ r, brain_init "lh" = .ok r) := by
  refine ⟨(brain_init_hemi_domain "xx").1 (by decide) (by decide), ?_⟩
  exact (brain_init_hemi_domain "lh").2.mpr (Or.inl rfl)

end PySurfer
